import Mathlib

/-!
Shallow embedding of the 2D flocking ("boids") simulation:
the per-frame tick over a list of fish, with the cohesion, avoidance and
alignment steering forces, componentwise velocity clamping and the
boundary wrap, translated from the JavaScript source.  Vectors are
`THREE.Vector3` values embedded as triples of reals (the z component is
carried along exactly as the source does).
-/

open Classical

noncomputable section

/-- Embeds `THREE.Vector3`: a triple of real components. -/
@[ext]
structure Vec3 where
  x : ℝ
  y : ℝ
  z : ℝ

namespace Vec3

/-- `new THREE.Vector3(0, 0, 0)`. -/
def zero : Vec3 := ⟨0, 0, 0⟩

/-- `Vector3.add`: componentwise addition. -/
def add (a b : Vec3) : Vec3 := ⟨a.x + b.x, a.y + b.y, a.z + b.z⟩

/-- `Vector3.sub` / `subVectors`: componentwise subtraction. -/
def sub (a b : Vec3) : Vec3 := ⟨a.x - b.x, a.y - b.y, a.z - b.z⟩

/-- `Vector3.multiplyScalar`. -/
def multiplyScalar (v : Vec3) (s : ℝ) : Vec3 := ⟨v.x * s, v.y * s, v.z * s⟩

/-- `Vector3.divideScalar`. -/
def divideScalar (v : Vec3) (s : ℝ) : Vec3 := ⟨v.x / s, v.y / s, v.z / s⟩

/-- `Vector3.length`: the Euclidean norm. -/
def length (v : Vec3) : ℝ := Real.sqrt (v.x ^ 2 + v.y ^ 2 + v.z ^ 2)

/-- `Vector3.normalize`: `divideScalar(this.length() || 1)` — a zero-length
vector is divided by 1 (three.js's internal zero guard), so it stays zero. -/
def normalize (v : Vec3) : Vec3 :=
  v.divideScalar (if v.length = 0 then 1 else v.length)

/-- `Vector3.distanceTo`: Euclidean distance. -/
def distanceTo (a b : Vec3) : ℝ := (a.sub b).length

/-- `Vector3.clampScalar(minVal, maxVal)`: each component becomes
`Math.max(minVal, Math.min(maxVal, component))`. -/
def clampScalar (v : Vec3) (minVal maxVal : ℝ) : Vec3 :=
  ⟨max minVal (min maxVal v.x), max minVal (min maxVal v.y), max minVal (min maxVal v.z)⟩

end Vec3

/-- `const numFish = 150`. -/
def numFish : ℕ := 150
/-- `const fishSize = 7`. -/
def fishSize : ℝ := 7
/-- `const boundaryWidth = 640`. -/
def boundaryWidth : ℝ := 640
/-- `const boundaryHeight = 320`. -/
def boundaryHeight : ℝ := 320
/-- `const boundaryMargin = 10`. -/
def boundaryMargin : ℝ := 10
/-- `const cohesionRadius = 40`. -/
def cohesionRadius : ℝ := 40
/-- `const cohesionStrength = 1.5`. -/
def cohesionStrength : ℝ := 1.5
/-- `const alignmentRadius = 40`. -/
def alignmentRadius : ℝ := 40
/-- `const alignmentStrength = 1.0`. -/
def alignmentStrength : ℝ := 1.0
/-- `const avoidanceRadius = 25`. -/
def avoidanceRadius : ℝ := 25
/-- `const avoidanceStrength = 4.0`. -/
def avoidanceStrength : ℝ := 4.0
/-- `const maxFishSpeed = 4`. -/
def maxFishSpeed : ℝ := 4
/-- `const maxFishForce = 0.04`. -/
def maxFishForce : ℝ := 0.04

/-- One fish: position, velocity and acceleration vectors plus the
`rotation.z` heading angle. -/
structure Fish where
  position : Vec3
  velocity : Vec3
  acceleration : Vec3
  rotZ : ℝ

/-- Sum of a list of vectors (the accumulation order of the source's
`forEach` loops is handled by the fold lemmas below). -/
def vsum (l : List Vec3) : Vec3 := l.foldr Vec3.add Vec3.zero

/-- The accumulation loop of `cohesion`: count the fish with
`0 < dist < cohesionRadius + fishSize * 2` and sum their positions. -/
def cohesionAcc (flock : List Fish) (fish : Fish) : ℕ × Vec3 :=
  flock.foldl (fun acc other =>
    if 0 < fish.position.distanceTo other.position ∧
        fish.position.distanceTo other.position < cohesionRadius + fishSize * 2 then
      (acc.1 + 1, acc.2.add other.position)
    else acc) ((0 : ℕ), Vec3.zero)

/-- `cohesion(fish)`: steer toward the average position of neighbors. -/
def cohesion (flock : List Fish) (fish : Fish) : Vec3 :=
  let acc := cohesionAcc flock fish
  if 0 < acc.1 then
    let sum := acc.2.divideScalar acc.1
    let desired := ((sum.sub fish.position).normalize).multiplyScalar maxFishSpeed
    (desired.sub fish.velocity).clampScalar (-maxFishForce) maxFishForce
  else acc.2

/-- The accumulation loop of `avoid`: for each fish with
`0 < dist < avoidanceRadius`, accumulate `normalize(position - other.position) / dist`. -/
def avoidAcc (flock : List Fish) (fish : Fish) : ℕ × Vec3 :=
  flock.foldl (fun acc other =>
    if 0 < fish.position.distanceTo other.position ∧
        fish.position.distanceTo other.position < avoidanceRadius then
      (acc.1 + 1,
       acc.2.add (((fish.position.sub other.position).normalize).divideScalar
         (fish.position.distanceTo other.position)))
    else acc) ((0 : ℕ), Vec3.zero)

/-- `avoid(fish)`: steer away from fish that are too close. -/
def avoid (flock : List Fish) (fish : Fish) : Vec3 :=
  let acc := avoidAcc flock fish
  let steer := if 0 < acc.1 then acc.2.divideScalar acc.1 else acc.2
  let mag := Real.sqrt (steer.x ^ 2 + steer.y ^ 2 + steer.z ^ 2)
  if 0 < mag then
    (((steer.normalize).multiplyScalar maxFishSpeed).sub fish.velocity).clampScalar
      (-maxFishForce) maxFishForce
  else steer

/-- The accumulation loop of `align`: count the fish with
`0 < dist < alignmentRadius` and sum their velocities. -/
def alignAcc (flock : List Fish) (fish : Fish) : ℕ × Vec3 :=
  flock.foldl (fun acc other =>
    if 0 < fish.position.distanceTo other.position ∧
        fish.position.distanceTo other.position < alignmentRadius then
      (acc.1 + 1, acc.2.add other.velocity)
    else acc) ((0 : ℕ), Vec3.zero)

/-- `align(fish)`: steer toward the average velocity of neighbors. -/
def align (flock : List Fish) (fish : Fish) : Vec3 :=
  let acc := alignAcc flock fish
  if 0 < acc.1 then
    let sum := (((acc.2.divideScalar acc.1).normalize).multiplyScalar maxFishSpeed)
    (sum.sub fish.velocity).clampScalar (-maxFishForce) maxFishForce
  else acc.2

/-- The acceleration accumulated inside the tick for one fish: the entry
acceleration plus the three strength-scaled steering forces. -/
def tickAccel (flock : List Fish) (fish : Fish) : Vec3 :=
  ((fish.acceleration.add ((cohesion flock fish).multiplyScalar cohesionStrength)).add
    ((avoid flock fish).multiplyScalar avoidanceStrength)).add
    ((align flock fish).multiplyScalar alignmentStrength)

/-- The boundary-wrap step for one coordinate: `if (p > bound || p < -bound) p *= -1`. -/
def wrapCoord (bound p : ℝ) : ℝ := if p > bound ∨ p < -bound then p * (-1) else p

/-- The body of the `fishies.forEach` loop in `render`, for one fish read
against the flock state `flock`: accumulate the forces into the
acceleration, integrate velocity (componentwise clamped) and position,
recompute the heading, reset the acceleration and wrap at the boundary. -/
def updateFish (flock : List Fish) (fish : Fish) : Fish :=
  let acc := tickAccel flock fish
  let vel := (fish.velocity.add acc).clampScalar (-maxFishSpeed) maxFishSpeed
  let pos := fish.position.add vel
  let rot := Real.arctan (vel.y / vel.x) - Real.pi / 2 * Real.sign vel.x
  { position := ⟨wrapCoord boundaryWidth pos.x, wrapCoord boundaryHeight pos.y, pos.z⟩
    velocity := vel
    acceleration := acc.multiplyScalar 0
    rotZ := rot }

/-- One iteration of the `forEach` in `render`: update the fish at index
`i` in place, reading the current (partially updated) flock. -/
def tickStep (flock : List Fish) (i : ℕ) : List Fish :=
  match flock.get? i with
  | some f => flock.set i (updateFish flock f)
  | none => flock

/-- The first `n` iterations of the `forEach` loop of `render`. -/
def tickUpTo (flock : List Fish) (n : ℕ) : List Fish :=
  (List.range n).foldl tickStep flock

/-- One full tick (`render` without the draw call): every fish is updated
in sequence, each reading the flock state left by its predecessors. -/
def tickSeq (flock : List Fish) : List Fish :=
  tickUpTo flock flock.length

/-- Snapshot-semantics tick, following the spec's words: every fish's
forces are computed from the same pre-tick flock. -/
def tickSnap (flock : List Fish) : List Fish :=
  flock.map (updateFish flock)

/-- `n` consecutive ticks. -/
def tickN (n : ℕ) (flock : List Fish) : List Fish :=
  tickSeq^[n] flock

/-! ## Basic vector lemmas -/

theorem Vec3.add_zero' (v : Vec3) : v.add Vec3.zero = v := by
  simp [Vec3.add, Vec3.zero]

theorem Vec3.zero_add' (v : Vec3) : Vec3.zero.add v = v := by
  simp [Vec3.add, Vec3.zero]

theorem Vec3.add_assoc' (a b c : Vec3) : (a.add b).add c = a.add (b.add c) := by
  simp [Vec3.add]; refine ⟨by ring, by ring, by ring⟩

theorem Vec3.distanceTo_self (v : Vec3) : v.distanceTo v = 0 := by
  simp [Vec3.distanceTo, Vec3.sub, Vec3.length]

/-- Evaluate a square root from the square of a nonnegative value. -/
theorem sqrt_eval {a b : ℝ} (hb : 0 ≤ b) (h : b ^ 2 = a) : Real.sqrt a = b := by
  rw [← h, Real.sqrt_sq hb]

/-- A clamped component lies within the clamp bounds. -/
theorem abs_clamp_le {c t : ℝ} (hc : 0 ≤ c) : |max (-c) (min c t)| ≤ c := by
  rw [abs_le]
  constructor
  · exact le_max_left _ _
  · exact max_le (by linarith) (min_le_left _ _)

/-! ## The accumulation loops as filters over the flock -/

/-- The `forEach` accumulation pattern shared by the three forces:
counting the fish passing a test and summing a vector over them equals
taking the length of, and vector sum over, the filtered list. -/
theorem foldl_count_sum (p : Fish → Prop) [DecidablePred p] (g : Fish → Vec3) (l : List Fish)
    (c : ℕ) (s : Vec3) :
    l.foldl (fun acc o => if p o then (acc.1 + 1, acc.2.add (g o)) else acc) (c, s)
      = (c + (l.filter (fun o => decide (p o))).length,
         s.add (vsum ((l.filter (fun o => decide (p o))).map g))) := by
  induction l generalizing c s with
  | nil => simp [vsum, Vec3.add_zero']
  | cons o rest ih =>
    by_cases h : p o
    · simp only [List.foldl_cons, if_pos h, List.filter_cons, decide_eq_true_eq, h,
        if_pos, List.length_cons, List.map_cons, ih, Prod.mk.injEq]
      refine ⟨by omega, ?_⟩
      simp [vsum, Vec3.add_assoc']
    · simp only [List.foldl_cons, if_neg h, List.filter_cons, decide_eq_true_eq, h,
        ih]
      simp [h]

/-- The cohesion neighborhood: fish with `0 < dist < cohesionRadius + fishSize * 2`. -/
def cohesionNbrs (flock : List Fish) (fish : Fish) : List Fish :=
  flock.filter (fun o => decide (0 < fish.position.distanceTo o.position ∧
    fish.position.distanceTo o.position < cohesionRadius + fishSize * 2))

theorem cohesionAcc_eq (flock : List Fish) (fish : Fish) :
    cohesionAcc flock fish
      = ((cohesionNbrs flock fish).length,
         vsum ((cohesionNbrs flock fish).map Fish.position)) := by
  unfold cohesionAcc cohesionNbrs
  rw [foldl_count_sum]
  simp [Vec3.zero_add']

/-- The avoidance neighborhood: fish with `0 < dist < avoidanceRadius`. -/
def avoidNbrs (flock : List Fish) (fish : Fish) : List Fish :=
  flock.filter (fun o => decide (0 < fish.position.distanceTo o.position ∧
    fish.position.distanceTo o.position < avoidanceRadius))

theorem avoidAcc_eq (flock : List Fish) (fish : Fish) :
    avoidAcc flock fish
      = ((avoidNbrs flock fish).length,
         vsum ((avoidNbrs flock fish).map (fun o =>
           ((fish.position.sub o.position).normalize).divideScalar
             (fish.position.distanceTo o.position)))) := by
  unfold avoidAcc avoidNbrs
  rw [foldl_count_sum]
  simp [Vec3.zero_add']

/-- The alignment neighborhood: fish with `0 < dist < alignmentRadius`. -/
def alignNbrs (flock : List Fish) (fish : Fish) : List Fish :=
  flock.filter (fun o => decide (0 < fish.position.distanceTo o.position ∧
    fish.position.distanceTo o.position < alignmentRadius))

theorem alignAcc_eq (flock : List Fish) (fish : Fish) :
    alignAcc flock fish
      = ((alignNbrs flock fish).length,
         vsum ((alignNbrs flock fish).map Fish.velocity)) := by
  unfold alignAcc alignNbrs
  rw [foldl_count_sum]
  simp [Vec3.zero_add']

/-! ## The sequential tick, index by index -/

theorem tickStep_length (flock : List Fish) (i : ℕ) :
    (tickStep flock i).length = flock.length := by
  unfold tickStep
  cases h : flock.get? i <;> simp

theorem tickUpTo_succ (flock : List Fish) (n : ℕ) :
    tickUpTo flock (n + 1) = tickStep (tickUpTo flock n) n := by
  unfold tickUpTo
  rw [List.range_succ, List.foldl_append]
  rfl

theorem tickUpTo_length (flock : List Fish) (n : ℕ) :
    (tickUpTo flock n).length = flock.length := by
  induction n with
  | zero => rfl
  | succ n ih => rw [tickUpTo_succ, tickStep_length, ih]

/-- Iterations up to `n` leave the fish at indices `≥ n` untouched. -/
theorem tickUpTo_get?_of_le (flock : List Fish) {i n : ℕ} (h : n ≤ i) :
    (tickUpTo flock n).get? i = flock.get? i := by
  induction n with
  | zero => rfl
  | succ n ih =>
    rw [tickUpTo_succ]
    unfold tickStep
    cases hg : (tickUpTo flock n).get? n with
    | none => exact ih (by omega)
    | some f =>
      rw [List.get?_set_ne _ _ (by omega : n ≠ i)]
      exact ih (by omega)

/-- The fish at index `j` is stable once iteration `j` has run. -/
theorem tickUpTo_get?_stable (flock : List Fish) {j m : ℕ} (h1 : j < m) :
    (tickUpTo flock m).get? j = (tickUpTo flock (j + 1)).get? j := by
  induction m with
  | zero => omega
  | succ m ih =>
    rcases Nat.lt_or_ge j m with hm | hm
    · rw [tickUpTo_succ]
      unfold tickStep
      cases hg : (tickUpTo flock m).get? m with
      | none => exact ih hm
      | some f =>
        rw [List.get?_set_ne _ _ (by omega : m ≠ j)]
        exact ih hm
    · have : m = j := by omega
      subst this
      rfl

/-- Sequential-update characterization of the tick: the post-tick fish at
index `j` is its own pre-tick state updated against the flock in which
fish `0 … j-1` have already advanced and fish `j …` have not. -/
theorem tickSeq_get?_eq (flock : List Fish) {j : ℕ} (hj : j < flock.length) :
    (tickSeq flock).get? j
      = (flock.get? j).map (fun f => updateFish (tickUpTo flock j) f) := by
  unfold tickSeq
  rw [tickUpTo_get?_stable flock hj, tickUpTo_succ]
  unfold tickStep
  rw [tickUpTo_get?_of_le flock (le_refl j)]
  cases hg : flock.get? j with
  | none =>
    rw [List.get?_eq_none] at hg
    omega
  | some f =>
    simp only [Option.map_some']
    rw [List.get?_set_eq_of_lt]
    rw [tickUpTo_length]
    exact hj

/-- Every fish of the post-tick flock is `updateFish` of some pre-tick fish. -/
theorem mem_tickSeq (flock : List Fish) {g : Fish} (hg : g ∈ tickSeq flock) :
    ∃ fl f, f ∈ flock ∧ g = updateFish fl f := by
  rw [List.mem_iff_get?] at hg
  obtain ⟨n, hn⟩ := hg
  have hlen : n < flock.length := by
    by_contra h
    rw [tickSeq, tickUpTo_get?_of_le flock (by omega : flock.length ≤ n),
      List.get?_eq_none.2 (by omega)] at hn
    cases hn
  rw [tickSeq_get?_eq flock hlen] at hn
  cases hf : flock.get? n with
  | none => rw [hf] at hn; cases hn
  | some f =>
    rw [hf] at hn
    simp only [Option.map_some', Option.some.injEq] at hn
    exact ⟨_, _, List.get?_mem hf, hn.symm⟩

/-! ## Evaluation helpers -/

theorem vsum_nil : vsum [] = Vec3.zero := rfl

theorem vsum_cons (v : Vec3) (l : List Vec3) : vsum (v :: l) = v.add (vsum l) := rfl

theorem length_eval {v : Vec3} {L : ℝ} (hL : 0 ≤ L)
    (h : L ^ 2 = v.x ^ 2 + v.y ^ 2 + v.z ^ 2) : v.length = L := by
  unfold Vec3.length
  exact sqrt_eval hL h

theorem normalize_eval {v : Vec3} {L : ℝ} (hL : v.length = L) (h0 : L ≠ 0) :
    v.normalize = v.divideScalar L := by
  unfold Vec3.normalize
  rw [hL, if_neg h0]

theorem normalize_zero_of (v : Vec3) (h : v.length = 0) : v.normalize = v.divideScalar 1 := by
  unfold Vec3.normalize
  rw [h, if_pos rfl]

/-- A component already inside the clamp interval is unchanged. -/
theorem clamp_id {c t : ℝ} (h : |t| ≤ c) : max (-c) (min c t) = t := by
  rw [abs_le] at h
  rw [min_eq_right h.2, max_eq_right h.1]

/-- The wrap never increases the absolute value beyond `max bound |p|`. -/
theorem abs_wrapCoord_le (bound p : ℝ) : |wrapCoord bound p| ≤ max bound |p| := by
  unfold wrapCoord
  split
  · rw [mul_neg_one, abs_neg]
    exact le_max_right _ _
  · next h =>
    push_neg at h
    exact le_max_of_le_left (abs_le.2 ⟨by linarith [h.2], h.1⟩)

/-- Fish whose coordinate stays inside the bound are not wrapped. -/
theorem wrapCoord_id {bound p : ℝ} (h : |p| ≤ bound) : wrapCoord bound p = p := by
  unfold wrapCoord
  rw [abs_le] at h
  rw [if_neg]
  push_neg
  exact ⟨h.2, h.1⟩

/-! ## Zero-neighborhood forces -/

theorem cohesion_of_nbrs_nil {flock : List Fish} {fish : Fish}
    (h : cohesionNbrs flock fish = []) : cohesion flock fish = Vec3.zero := by
  unfold cohesion
  rw [cohesionAcc_eq, h]
  simp [vsum_nil]

theorem align_of_nbrs_nil {flock : List Fish} {fish : Fish}
    (h : alignNbrs flock fish = []) : align flock fish = Vec3.zero := by
  unfold align
  rw [alignAcc_eq, h]
  simp [vsum_nil]

theorem avoid_of_nbrs_nil {flock : List Fish} {fish : Fish}
    (h : avoidNbrs flock fish = []) : avoid flock fish = Vec3.zero := by
  unfold avoid
  rw [avoidAcc_eq, h]
  simp only [List.length_nil, List.map_nil, vsum_nil, lt_self_iff_false, if_false]
  rw [if_neg]
  simp only [Vec3.zero]
  rw [show (0:ℝ)^2 + 0^2 + 0^2 = 0 by norm_num, Real.sqrt_zero]
  exact lt_irrefl 0

/-! ## Projections of the fish update -/

theorem updateFish_velocity (flock : List Fish) (fish : Fish) :
    (updateFish flock fish).velocity
      = (fish.velocity.add (tickAccel flock fish)).clampScalar (-maxFishSpeed) maxFishSpeed := rfl

theorem updateFish_position_x (flock : List Fish) (fish : Fish) :
    (updateFish flock fish).position.x
      = wrapCoord boundaryWidth (fish.position.x + (updateFish flock fish).velocity.x) := rfl

theorem updateFish_position_y (flock : List Fish) (fish : Fish) :
    (updateFish flock fish).position.y
      = wrapCoord boundaryHeight (fish.position.y + (updateFish flock fish).velocity.y) := rfl

theorem updateFish_position_z (flock : List Fish) (fish : Fish) :
    (updateFish flock fish).position.z
      = fish.position.z + (updateFish flock fish).velocity.z := rfl

theorem tickAccel_eq_zero {flock : List Fish} {fish : Fish}
    (hacc : fish.acceleration = Vec3.zero)
    (hc : cohesion flock fish = Vec3.zero) (hv : avoid flock fish = Vec3.zero)
    (hl : align flock fish = Vec3.zero) : tickAccel flock fish = Vec3.zero := by
  unfold tickAccel
  rw [hacc, hc, hv, hl]
  simp [Vec3.multiplyScalar, Vec3.add, Vec3.zero]

/-! ## Singleton flocks -/

theorem cohesionNbrs_singleton (f : Fish) : cohesionNbrs [f] f = [] := by
  unfold cohesionNbrs
  rw [List.filter_eq_nil]
  intro a ha
  rw [List.mem_singleton] at ha
  subst ha
  simp [Vec3.distanceTo_self]

theorem avoidNbrs_singleton (f : Fish) : avoidNbrs [f] f = [] := by
  unfold avoidNbrs
  rw [List.filter_eq_nil]
  intro a ha
  rw [List.mem_singleton] at ha
  subst ha
  simp [Vec3.distanceTo_self]

theorem alignNbrs_singleton (f : Fish) : alignNbrs [f] f = [] := by
  unfold alignNbrs
  rw [List.filter_eq_nil]
  intro a ha
  rw [List.mem_singleton] at ha
  subst ha
  simp [Vec3.distanceTo_self]

theorem tickSeq_singleton (f : Fish) : tickSeq [f] = [updateFish [f] f] := rfl

/-- A concrete fish used to instantiate hypotheses below. -/
def fishS : Fish := ⟨⟨0, 0, 0⟩, ⟨1, 2, 0⟩, ⟨0, 0, 0⟩, 0⟩

/-! ## C3 -/

/-- C3: after every tick, every fish's velocity is componentwise clamped:
`|velocity.x| ≤ maxFishSpeed` and `|velocity.y| ≤ maxFishSpeed`. -/
theorem velocity_clamped_post_tick (flock : List Fish) (g : Fish) (hg : g ∈ tickSeq flock) :
    |g.velocity.x| ≤ maxFishSpeed ∧ |g.velocity.y| ≤ maxFishSpeed := by
  obtain ⟨fl, f, _, rfl⟩ := mem_tickSeq flock hg
  have h4 : (0 : ℝ) ≤ maxFishSpeed := by norm_num [maxFishSpeed]
  rw [updateFish_velocity]
  simp only [Vec3.clampScalar]
  exact ⟨abs_clamp_le h4, abs_clamp_le h4⟩

/-- Witness for C3 at a concrete singleton flock. -/
theorem velocity_clamped_post_tick_witness :
    |(updateFish [fishS] fishS).velocity.x| ≤ maxFishSpeed ∧
    |(updateFish [fishS] fishS).velocity.y| ≤ maxFishSpeed :=
  velocity_clamped_post_tick [fishS] _
    (by rw [tickSeq_singleton]; exact List.mem_singleton_self _)

/-! ## C6 -/

/-- C6: the boundary wrap is exactly coordinate negation under the
`|coordinate| > bound` test (reflection through the origin, not a modulo
wrap), and in particular sends `boundaryWidth + 1` to `-(boundaryWidth + 1)`. -/
theorem wrap_is_reflection :
    (∀ bound p : ℝ, wrapCoord bound p = if |p| > bound then -p else p) ∧
    wrapCoord boundaryWidth (boundaryWidth + 1) = -(boundaryWidth + 1) := by
  constructor
  · intro bound p
    unfold wrapCoord
    by_cases h : |p| > bound
    · rw [if_pos h, if_pos, mul_neg_one]
      rcases lt_abs.1 h with h1 | h1
      · exact Or.inl h1
      · exact Or.inr (by linarith)
    · rw [if_neg h, if_neg]
      push_neg at h
      rw [abs_le] at h
      push_neg
      exact ⟨h.2, by linarith [h.1]⟩
  · unfold wrapCoord
    rw [if_pos]
    · ring
    · left
      norm_num [boundaryWidth]

/-! ## C9 -/

/-- C9: the tick uses no randomness — iterating `tickSeq` any number of
times from equal flock states yields equal flock states. -/
theorem tick_deterministic (n : ℕ) (flock1 flock2 : List Fish) (h : flock1 = flock2) :
    tickN n flock1 = tickN n flock2 := by
  rw [h]

/-- Witness for C9 at a concrete flock. -/
theorem tick_deterministic_witness : tickN 3 [fishS] = tickN 3 [fishS] :=
  tick_deterministic 3 [fishS] [fishS] rfl

/-! ## C8 -/

/-- C8: a fish with no other fish inside any of the three neighbor radii
has zero cohesion, avoidance and alignment forces; starting from zero
acceleration with each velocity component within `±maxFishSpeed`, its
velocity is unchanged by the tick and its position advances by exactly its
velocity (then boundary-wrapped) — straight-line motion.  A singleton
flock (`numFish = 1`) satisfies the neighbor hypothesis for every tick. -/
theorem no_neighbor_forces_zero (flock : List Fish) (fish : Fish)
    (h : ∀ o ∈ flock,
      ¬(0 < fish.position.distanceTo o.position ∧
        fish.position.distanceTo o.position < cohesionRadius + fishSize * 2) ∧
      ¬(0 < fish.position.distanceTo o.position ∧
        fish.position.distanceTo o.position < avoidanceRadius) ∧
      ¬(0 < fish.position.distanceTo o.position ∧
        fish.position.distanceTo o.position < alignmentRadius))
    (hacc : fish.acceleration = Vec3.zero)
    (hvx : |fish.velocity.x| ≤ maxFishSpeed) (hvy : |fish.velocity.y| ≤ maxFishSpeed)
    (hvz : |fish.velocity.z| ≤ maxFishSpeed) :
    cohesion flock fish = Vec3.zero ∧ avoid flock fish = Vec3.zero ∧
    align flock fish = Vec3.zero ∧
    (updateFish flock fish).velocity = fish.velocity ∧
    (updateFish flock fish).position =
      ⟨wrapCoord boundaryWidth (fish.position.x + fish.velocity.x),
       wrapCoord boundaryHeight (fish.position.y + fish.velocity.y),
       fish.position.z + fish.velocity.z⟩ := by
  have hc : cohesion flock fish = Vec3.zero := by
    refine cohesion_of_nbrs_nil ?_
    unfold cohesionNbrs
    rw [List.filter_eq_nil]
    intro a ha
    simpa using (h a ha).1
  have hv : avoid flock fish = Vec3.zero := by
    refine avoid_of_nbrs_nil ?_
    unfold avoidNbrs
    rw [List.filter_eq_nil]
    intro a ha
    simpa using (h a ha).2.1
  have hl : align flock fish = Vec3.zero := by
    refine align_of_nbrs_nil ?_
    unfold alignNbrs
    rw [List.filter_eq_nil]
    intro a ha
    simpa using (h a ha).2.2
  have hA : tickAccel flock fish = Vec3.zero := tickAccel_eq_zero hacc hc hv hl
  have hvel : (updateFish flock fish).velocity = fish.velocity := by
    rw [updateFish_velocity, hA, Vec3.add_zero']
    ext
    · exact clamp_id hvx
    · exact clamp_id hvy
    · exact clamp_id hvz
  refine ⟨hc, hv, hl, hvel, ?_⟩
  ext
  · rw [updateFish_position_x, hvel]
  · rw [updateFish_position_y, hvel]
  · rw [updateFish_position_z, hvel]

/-- Witness for C8 at a concrete singleton flock. -/
theorem no_neighbor_forces_zero_witness :
    cohesion [fishS] fishS = Vec3.zero ∧ avoid [fishS] fishS = Vec3.zero ∧
    align [fishS] fishS = Vec3.zero ∧
    (updateFish [fishS] fishS).velocity = fishS.velocity ∧
    (updateFish [fishS] fishS).position =
      ⟨wrapCoord boundaryWidth (fishS.position.x + fishS.velocity.x),
       wrapCoord boundaryHeight (fishS.position.y + fishS.velocity.y),
       fishS.position.z + fishS.velocity.z⟩ :=
  no_neighbor_forces_zero [fishS] fishS
    (by
      intro o ho
      rw [List.mem_singleton] at ho
      subst ho
      simp [Vec3.distanceTo_self])
    rfl
    (by norm_num [fishS, maxFishSpeed])
    (by norm_num [fishS, maxFishSpeed])
    (by norm_num [fishS, maxFishSpeed])

/-! ## C1 -/

/-- C1 (amended): if every fish starts the tick inside the boundary
rectangle, every post-tick position is within the rectangle enlarged by
one maximal velocity step (`maxFishSpeed`) in each coordinate; the wrap
negates a crossed coordinate and so preserves its absolute value, so the
strict `|x| ≤ boundaryWidth` bound of the claim fails. -/
theorem position_bound_after_tick (flock : List Fish)
    (h : ∀ f ∈ flock, |f.position.x| ≤ boundaryWidth ∧ |f.position.y| ≤ boundaryHeight) :
    ∀ g ∈ tickSeq flock,
      |g.position.x| ≤ boundaryWidth + maxFishSpeed ∧
      |g.position.y| ≤ boundaryHeight + maxFishSpeed := by
  intro g hg
  obtain ⟨fl, f, hf, rfl⟩ := mem_tickSeq flock hg
  obtain ⟨hx, hy⟩ := h f hf
  have h4 : (0 : ℝ) ≤ maxFishSpeed := by norm_num [maxFishSpeed]
  have hvx : |(updateFish fl f).velocity.x| ≤ maxFishSpeed := by
    rw [updateFish_velocity]
    exact abs_clamp_le h4
  have hvy : |(updateFish fl f).velocity.y| ≤ maxFishSpeed := by
    rw [updateFish_velocity]
    exact abs_clamp_le h4
  constructor
  · rw [updateFish_position_x]
    refine le_trans (abs_wrapCoord_le _ _) (max_le (by linarith) ?_)
    calc |f.position.x + (updateFish fl f).velocity.x|
        ≤ |f.position.x| + |(updateFish fl f).velocity.x| := abs_add _ _
      _ ≤ boundaryWidth + maxFishSpeed := by linarith
  · rw [updateFish_position_y]
    refine le_trans (abs_wrapCoord_le _ _) (max_le (by linarith) ?_)
    calc |f.position.y + (updateFish fl f).velocity.y|
        ≤ |f.position.y| + |(updateFish fl f).velocity.y| := abs_add _ _
      _ ≤ boundaryHeight + maxFishSpeed := by linarith

/-- Witness for the amended C1 at a concrete singleton flock. -/
theorem position_bound_after_tick_witness :
    |(updateFish [fishS] fishS).position.x| ≤ boundaryWidth + maxFishSpeed ∧
    |(updateFish [fishS] fishS).position.y| ≤ boundaryHeight + maxFishSpeed :=
  position_bound_after_tick [fishS]
    (by
      intro f hf
      rw [List.mem_singleton] at hf
      subst hf
      norm_num [fishS, boundaryWidth, boundaryHeight])
    _ (by rw [tickSeq_singleton]; exact List.mem_singleton_self _)

/-- A fish on the boundary moving outward, used to refute C1 as stated. -/
def fishC1 : Fish := ⟨⟨640, 0, 0⟩, ⟨1, 0, 0⟩, ⟨0, 0, 0⟩, 0⟩

/-- C1 as stated is false: the fish `fishC1` starts inside the rectangle
(at `x = boundaryWidth`) but ends the tick at `x = -641`, of absolute
value strictly greater than `boundaryWidth`. -/
theorem position_escapes_bound :
    ¬ (∀ flock : List Fish, ∀ g ∈ tickSeq flock,
        |g.position.x| ≤ boundaryWidth ∧ |g.position.y| ≤ boundaryHeight) := by
  intro hclaim
  have hm : updateFish [fishC1] fishC1 ∈ tickSeq [fishC1] := by
    rw [tickSeq_singleton]
    exact List.mem_singleton_self _
  have hx := (hclaim [fishC1] _ hm).1
  have hA : tickAccel [fishC1] fishC1 = Vec3.zero :=
    tickAccel_eq_zero rfl (cohesion_of_nbrs_nil (cohesionNbrs_singleton _))
      (avoid_of_nbrs_nil (avoidNbrs_singleton _)) (align_of_nbrs_nil (alignNbrs_singleton _))
  have hvel : (updateFish [fishC1] fishC1).velocity = fishC1.velocity := by
    rw [updateFish_velocity, hA, Vec3.add_zero']
    ext
    · exact clamp_id (by norm_num [fishC1, maxFishSpeed])
    · exact clamp_id (by norm_num [fishC1, maxFishSpeed])
    · exact clamp_id (by norm_num [fishC1, maxFishSpeed])
  have hpx : (updateFish [fishC1] fishC1).position.x = -641 := by
    rw [updateFish_position_x, hvel]
    show wrapCoord boundaryWidth (640 + 1) = -641
    unfold wrapCoord
    rw [if_pos (Or.inl (by norm_num [boundaryWidth]))]
    norm_num
  rw [hpx] at hx
  norm_num [boundaryWidth] at hx

/-! ## C10 -/

theorem comps_zero_of_sqrt_not_pos {a b c : ℝ}
    (h : ¬ 0 < Real.sqrt (a ^ 2 + b ^ 2 + c ^ 2)) : a = 0 ∧ b = 0 ∧ c = 0 := by
  have h0 : Real.sqrt (a ^ 2 + b ^ 2 + c ^ 2) = 0 :=
    le_antisymm (not_lt.1 h) (Real.sqrt_nonneg _)
  have hle : a ^ 2 + b ^ 2 + c ^ 2 ≤ 0 := Real.sqrt_eq_zero'.1 h0
  refine ⟨?_, ?_, ?_⟩ <;> nlinarith [sq_nonneg a, sq_nonneg b, sq_nonneg c]

theorem cohesion_comp_bound (flock : List Fish) (fish : Fish) :
    |(cohesion flock fish).x| ≤ maxFishForce ∧ |(cohesion flock fish).y| ≤ maxFishForce ∧
    |(cohesion flock fish).z| ≤ maxFishForce := by
  have hF : (0 : ℝ) ≤ maxFishForce := by norm_num [maxFishForce]
  simp only [cohesion]
  split
  · exact ⟨abs_clamp_le hF, abs_clamp_le hF, abs_clamp_le hF⟩
  · next h =>
    have h0 : cohesionNbrs flock fish = [] := by
      rw [cohesionAcc_eq] at h
      simp only [not_lt, Nat.le_zero] at h
      exact List.length_eq_zero.1 h
    rw [cohesionAcc_eq, h0]
    simp only [List.map_nil, vsum_nil, Vec3.zero]
    norm_num [hF]

theorem align_comp_bound (flock : List Fish) (fish : Fish) :
    |(align flock fish).x| ≤ maxFishForce ∧ |(align flock fish).y| ≤ maxFishForce ∧
    |(align flock fish).z| ≤ maxFishForce := by
  have hF : (0 : ℝ) ≤ maxFishForce := by norm_num [maxFishForce]
  simp only [align]
  split
  · exact ⟨abs_clamp_le hF, abs_clamp_le hF, abs_clamp_le hF⟩
  · next h =>
    have h0 : alignNbrs flock fish = [] := by
      rw [alignAcc_eq] at h
      simp only [not_lt, Nat.le_zero] at h
      exact List.length_eq_zero.1 h
    rw [alignAcc_eq, h0]
    simp only [List.map_nil, vsum_nil, Vec3.zero]
    norm_num [hF]

theorem avoid_comp_bound (flock : List Fish) (fish : Fish) :
    |(avoid flock fish).x| ≤ maxFishForce ∧ |(avoid flock fish).y| ≤ maxFishForce ∧
    |(avoid flock fish).z| ≤ maxFishForce := by
  have hF : (0 : ℝ) ≤ maxFishForce := by norm_num [maxFishForce]
  simp only [avoid]
  split
  · split
    · exact ⟨abs_clamp_le hF, abs_clamp_le hF, abs_clamp_le hF⟩
    · next h =>
      obtain ⟨ha, hb, hc⟩ := comps_zero_of_sqrt_not_pos h
      rw [ha, hb, hc]
      norm_num [hF]
  · split
    · exact ⟨abs_clamp_le hF, abs_clamp_le hF, abs_clamp_le hF⟩
    · next h =>
      obtain ⟨ha, hb, hc⟩ := comps_zero_of_sqrt_not_pos h
      rw [ha, hb, hc]
      norm_num [hF]

/-- C10 (implicit): every component of each of the three steering forces
lies in `[-maxFishForce, maxFishForce]` (the zero vector trivially so, the
other branch by the componentwise clamp), hence with zero entry
acceleration every component of the accumulated tick acceleration is
bounded by `(cohesionStrength + avoidanceStrength + alignmentStrength) *
maxFishForce`. -/
theorem forces_and_accel_bounded (flock : List Fish) (fish : Fish) :
    (|(cohesion flock fish).x| ≤ maxFishForce ∧ |(cohesion flock fish).y| ≤ maxFishForce ∧
      |(cohesion flock fish).z| ≤ maxFishForce) ∧
    (|(avoid flock fish).x| ≤ maxFishForce ∧ |(avoid flock fish).y| ≤ maxFishForce ∧
      |(avoid flock fish).z| ≤ maxFishForce) ∧
    (|(align flock fish).x| ≤ maxFishForce ∧ |(align flock fish).y| ≤ maxFishForce ∧
      |(align flock fish).z| ≤ maxFishForce) ∧
    (fish.acceleration = Vec3.zero →
      |(tickAccel flock fish).x|
          ≤ (cohesionStrength + avoidanceStrength + alignmentStrength) * maxFishForce ∧
      |(tickAccel flock fish).y|
          ≤ (cohesionStrength + avoidanceStrength + alignmentStrength) * maxFishForce ∧
      |(tickAccel flock fish).z|
          ≤ (cohesionStrength + avoidanceStrength + alignmentStrength) * maxFishForce) := by
  obtain ⟨hc1, hc2, hc3⟩ := cohesion_comp_bound flock fish
  obtain ⟨ha1, ha2, ha3⟩ := avoid_comp_bound flock fish
  obtain ⟨hl1, hl2, hl3⟩ := align_comp_bound flock fish
  refine ⟨⟨hc1, hc2, hc3⟩, ⟨ha1, ha2, ha3⟩, ⟨hl1, hl2, hl3⟩, ?_⟩
  intro hacc
  unfold tickAccel
  rw [hacc]
  simp only [Vec3.add, Vec3.multiplyScalar, Vec3.zero]
  rw [abs_le] at hc1 hc2 hc3 ha1 ha2 ha3 hl1 hl2 hl3
  norm_num [maxFishForce, cohesionStrength, avoidanceStrength, alignmentStrength] at *
  refine ⟨abs_le.2 ⟨by linarith, by linarith⟩, abs_le.2 ⟨by linarith, by linarith⟩,
    abs_le.2 ⟨by linarith, by linarith⟩⟩

/-- Witness for C10's acceleration bound at a concrete input. -/
theorem forces_and_accel_bounded_witness :
    |(tickAccel [fishS] fishS).x|
        ≤ (cohesionStrength + avoidanceStrength + alignmentStrength) * maxFishForce ∧
    |(tickAccel [fishS] fishS).y|
        ≤ (cohesionStrength + avoidanceStrength + alignmentStrength) * maxFishForce ∧
    |(tickAccel [fishS] fishS).z|
        ≤ (cohesionStrength + avoidanceStrength + alignmentStrength) * maxFishForce :=
  (forces_and_accel_bounded [fishS] fishS).2.2.2 rfl

/-! ## C4 -/

/-- Cohesion force as the claim words it: over the agents `o` with
`0 < distance < cohesionRadius + 2·fishSize`, if the set is non-empty, the
componentwise clamp to `±maxFishForce` of
`normalize(mean_position - position)·maxFishSpeed - velocity` where
`mean_position` is the arithmetic mean of the included positions; if the
set is empty, the zero vector. -/
def cohesionSpec (flock : List Fish) (fish : Fish) : Vec3 :=
  let included := flock.filter (fun o => decide (0 < fish.position.distanceTo o.position ∧
    fish.position.distanceTo o.position < cohesionRadius + 2 * fishSize))
  if 0 < included.length then
    let mean := (vsum (included.map Fish.position)).divideScalar included.length
    ((((mean.sub fish.position).normalize).multiplyScalar maxFishSpeed).sub
      fish.velocity).clampScalar (-maxFishForce) maxFishForce
  else Vec3.zero

/-- The cohesion target: the arithmetic mean position of the included agents. -/
def cohesionTarget (flock : List Fish) (fish : Fish) : Vec3 :=
  (vsum ((cohesionNbrs flock fish).map Fish.position)).divideScalar
    (cohesionNbrs flock fish).length

/-- Agent at the origin for the three-fish cohesion scenario. -/
def fishO : Fish := ⟨⟨0, 0, 0⟩, ⟨0, 0, 0⟩, ⟨0, 0, 0⟩, 0⟩
/-- Agent at `(10, 0)`. -/
def fishP : Fish := ⟨⟨10, 0, 0⟩, ⟨0, 0, 0⟩, ⟨0, 0, 0⟩, 0⟩
/-- Agent at `(0, 10)`. -/
def fishQ : Fish := ⟨⟨0, 10, 0⟩, ⟨0, 0, 0⟩, ⟨0, 0, 0⟩, 0⟩

theorem distOP : fishO.position.distanceTo fishP.position = 10 := by
  show Vec3.distanceTo ⟨0, 0, 0⟩ ⟨10, 0, 0⟩ = 10
  unfold Vec3.distanceTo Vec3.sub
  exact length_eval (by norm_num) (by norm_num)

theorem distOQ : fishO.position.distanceTo fishQ.position = 10 := by
  show Vec3.distanceTo ⟨0, 0, 0⟩ ⟨0, 10, 0⟩ = 10
  unfold Vec3.distanceTo Vec3.sub
  exact length_eval (by norm_num) (by norm_num)

theorem cohesionNbrs_OPQ : cohesionNbrs [fishO, fishP, fishQ] fishO = [fishP, fishQ] := by
  unfold cohesionNbrs
  simp only [List.filter_cons, List.filter_nil, Vec3.distanceTo_self, distOP, distOQ]
  norm_num [cohesionRadius, fishSize]

theorem cohesionTarget_OPQ : cohesionTarget [fishO, fishP, fishQ] fishO = ⟨5, 5, 0⟩ := by
  unfold cohesionTarget
  rw [cohesionNbrs_OPQ]
  simp only [List.map_cons, List.map_nil, vsum_cons, vsum_nil, List.length_cons,
    List.length_nil]
  show Vec3.divideScalar (Vec3.add ⟨10, 0, 0⟩ (Vec3.add ⟨0, 10, 0⟩ Vec3.zero)) ((2 : ℕ) : ℝ)
    = ⟨5, 5, 0⟩
  simp [Vec3.add, Vec3.zero, Vec3.divideScalar]
  norm_num

/-- C4: the code's cohesion force coincides with the claim's description
(clamped steering toward the arithmetic mean of the positions of agents
within `cohesionRadius + 2·fishSize`, zero when there are none), and in
the three-fish scenario `(0,0), (10,0), (0,10)` the cohesion target of the
agent at the origin is `(5, 5)`. -/
theorem cohesion_matches_spec :
    (∀ (flock : List Fish) (fish : Fish), cohesion flock fish = cohesionSpec flock fish) ∧
    cohesionTarget [fishO, fishP, fishQ] fishO = ⟨5, 5, 0⟩ := by
  constructor
  · intro flock fish
    have hfil : flock.filter (fun o => decide (0 < fish.position.distanceTo o.position ∧
        fish.position.distanceTo o.position < cohesionRadius + 2 * fishSize))
        = cohesionNbrs flock fish := by
      unfold cohesionNbrs
      refine List.filter_congr fun a _ => ?_
      rw [decide_eq_decide, mul_comm]
    simp only [cohesion, cohesionSpec, cohesionAcc_eq, hfil]
    by_cases h : 0 < (cohesionNbrs flock fish).length
    · rw [if_pos h, if_pos h]
    · rw [if_neg h, if_neg h]
      have h0 : cohesionNbrs flock fish = [] :=
        List.length_eq_zero.1 (by omega)
      rw [h0]
      rfl
  · exact cohesionTarget_OPQ

/-! ## C5 -/

/-- Avoidance force as the claim words it: accumulate
`normalize(position - o.position) / distance` over the agents `o` with
`0 < distance < avoidanceRadius`, divide the sum by the count; if the
averaged vector has strictly positive Euclidean magnitude, normalize it,
scale to `maxFishSpeed`, subtract the velocity and componentwise-clamp to
`±maxFishForce`; a zero-magnitude average is returned unmodified. -/
def avoidSpec (flock : List Fish) (fish : Fish) : Vec3 :=
  let included := flock.filter (fun o => decide (0 < fish.position.distanceTo o.position ∧
    fish.position.distanceTo o.position < avoidanceRadius))
  let avg := (vsum (included.map (fun o =>
    ((fish.position.sub o.position).normalize).divideScalar
      (fish.position.distanceTo o.position)))).divideScalar included.length
  if 0 < avg.length then
    (((avg.normalize).multiplyScalar maxFishSpeed).sub fish.velocity).clampScalar
      (-maxFishForce) maxFishForce
  else avg

/-- C5: the code's avoidance force coincides with the claim's description,
including the zero-magnitude early return without a clamp. -/
theorem avoid_matches_spec (flock : List Fish) (fish : Fish) :
    avoid flock fish = avoidSpec flock fish := by
  have hfold : flock.filter (fun o => decide (0 < fish.position.distanceTo o.position ∧
      fish.position.distanceTo o.position < avoidanceRadius)) = avoidNbrs flock fish := rfl
  have hz0 : Vec3.zero.divideScalar (0 : ℝ) = Vec3.zero := by
    simp [Vec3.divideScalar, Vec3.zero]
  simp only [avoid, avoidSpec, avoidAcc_eq, Vec3.length, hfold]
  by_cases h : 0 < (avoidNbrs flock fish).length
  · rw [if_pos h]
  · have h0 : avoidNbrs flock fish = [] := List.length_eq_zero.1 (by omega)
    rw [h0]
    simp only [List.map_nil, vsum_nil, List.length_nil, Nat.cast_zero, lt_self_iff_false,
      if_false]
    rw [hz0]

/-! ## C7 -/

/-- A normalization that demands a prior magnitude guard: it refuses the
zero vector instead of relying on `normalize`'s internal zero guard. -/
def strictNormalize (v : Vec3) : Option Vec3 :=
  if v.length = 0 then none else some (v.divideScalar v.length)

/-- A division by a neighbor count, checked against a zero divisor. -/
def checkedDivN (v : Vec3) (n : ℕ) : Option Vec3 :=
  if n = 0 then none else some (v.divideScalar n)

/-- A division by a distance, checked against a zero divisor. -/
def checkedDivR (v : Vec3) (s : ℝ) : Option Vec3 :=
  if s = 0 then none else some (v.divideScalar s)

/-- `cohesion` with the guard discipline claim C7 asserts: the
normalization of `desired` must never receive a zero vector (the claim
says any normalization of a possibly-zero vector sits behind a magnitude
check; `cohesion` has no such check before this call). -/
def cohesionStrict (flock : List Fish) (fish : Fish) : Option Vec3 :=
  let acc := cohesionAcc flock fish
  if 0 < acc.1 then
    (strictNormalize ((acc.2.divideScalar acc.1).sub fish.position)).map
      (fun d => ((d.multiplyScalar maxFishSpeed).sub fish.velocity).clampScalar
        (-maxFishForce) maxFishForce)
  else some acc.2

/-- `cohesion` with its division by the neighbor count checked; the
normalization keeps the source's internal zero guard. -/
def cohesionChecked (flock : List Fish) (fish : Fish) : Option Vec3 :=
  let acc := cohesionAcc flock fish
  if 0 < acc.1 then
    (checkedDivN acc.2 acc.1).map (fun sum =>
      ((((sum.sub fish.position).normalize).multiplyScalar maxFishSpeed).sub
        fish.velocity).clampScalar (-maxFishForce) maxFishForce)
  else some acc.2

/-- `align` with its division by the neighbor count checked. -/
def alignChecked (flock : List Fish) (fish : Fish) : Option Vec3 :=
  let acc := alignAcc flock fish
  if 0 < acc.1 then
    (checkedDivN acc.2 acc.1).map (fun avg =>
      (((avg.normalize).multiplyScalar maxFishSpeed).sub fish.velocity).clampScalar
        (-maxFishForce) maxFishForce)
  else some acc.2

/-- The accumulation loop of `avoid` with the per-neighbor division by the
distance checked against a zero divisor. -/
def avoidAccChecked (flock : List Fish) (fish : Fish) : Option (ℕ × Vec3) :=
  flock.foldl (fun acc other =>
    acc.bind (fun q =>
      if 0 < fish.position.distanceTo other.position ∧
          fish.position.distanceTo other.position < avoidanceRadius then
        (checkedDivR ((fish.position.sub other.position).normalize)
          (fish.position.distanceTo other.position)).map
          (fun d => (q.1 + 1, q.2.add d))
      else some q)) (some ((0 : ℕ), Vec3.zero))

/-- `avoid` with every division checked and its normalization strict (it
does sit behind the `0 < magnitude` check in the source). -/
def avoidChecked (flock : List Fish) (fish : Fish) : Option Vec3 :=
  (avoidAccChecked flock fish).bind (fun acc =>
    (if 0 < acc.1 then checkedDivN acc.2 acc.1 else some acc.2).bind (fun steer =>
      if 0 < Real.sqrt (steer.x ^ 2 + steer.y ^ 2 + steer.z ^ 2) then
        (strictNormalize steer).map (fun n =>
          ((n.multiplyScalar maxFishSpeed).sub fish.velocity).clampScalar
            (-maxFishForce) maxFishForce)
      else some steer))

theorem avoidAccChecked_eq (flock : List Fish) (fish : Fish) :
    avoidAccChecked flock fish = some (avoidAcc flock fish) := by
  unfold avoidAccChecked avoidAcc
  generalize (0, Vec3.zero) = p
  induction flock generalizing p with
  | nil => rfl
  | cons o rest ih =>
    simp only [List.foldl_cons, Option.some_bind]
    by_cases hc : 0 < fish.position.distanceTo o.position ∧
        fish.position.distanceTo o.position < avoidanceRadius
    · rw [if_pos hc, if_pos hc]
      unfold checkedDivR
      rw [if_neg (ne_of_gt hc.1)]
      simp only [Option.map_some']
      exact ih _
    · rw [if_neg hc, if_neg hc]
      exact ih _

/-- C7 (amended): the divisions of the tick are all guarded — the
divisions by neighbor count run only under `0 < count`, the avoidance
division by the inter-fish distance only under `0 < distance`, and the
avoidance normalization sits behind the `0 < magnitude` check, so the
checked computations always succeed and agree with the code.  (The
cohesion and alignment normalizations, by contrast, can receive a zero
vector and are total only through `normalize`'s internal zero guard, and
the heading division `velocity.y / velocity.x` has no guard — see the
counterexample.) -/
theorem tick_division_guards (flock : List Fish) (fish : Fish) :
    cohesionChecked flock fish = some (cohesion flock fish) ∧
    avoidChecked flock fish = some (avoid flock fish) ∧
    alignChecked flock fish = some (align flock fish) := by
  refine ⟨?_, ?_, ?_⟩
  · simp only [cohesionChecked, cohesion]
    by_cases h : 0 < (cohesionAcc flock fish).1
    · rw [if_pos h, if_pos h]
      unfold checkedDivN
      rw [if_neg (by omega)]
      rfl
    · rw [if_neg h, if_neg h]
  · simp only [avoidChecked, avoid, avoidAccChecked_eq, Option.some_bind]
    by_cases h : 0 < (avoidAcc flock fish).1
    · rw [if_pos h, if_pos h]
      unfold checkedDivN
      rw [if_neg (by omega)]
      simp only [Option.some_bind]
      by_cases hm : 0 < Real.sqrt
          (((avoidAcc flock fish).2.divideScalar ((avoidAcc flock fish).1 : ℝ)).x ^ 2 +
           ((avoidAcc flock fish).2.divideScalar ((avoidAcc flock fish).1 : ℝ)).y ^ 2 +
           ((avoidAcc flock fish).2.divideScalar ((avoidAcc flock fish).1 : ℝ)).z ^ 2)
      · rw [if_pos hm, if_pos hm]
        have hlen : ((avoidAcc flock fish).2.divideScalar
            ((avoidAcc flock fish).1 : ℝ)).length ≠ 0 := by
          unfold Vec3.length
          exact ne_of_gt hm
        unfold strictNormalize
        rw [if_neg hlen, Option.map_some', normalize_eval rfl hlen]
      · rw [if_neg hm, if_neg hm]
    · rw [if_neg h, if_neg h]
      simp only [Option.some_bind]
      by_cases hm : 0 < Real.sqrt ((avoidAcc flock fish).2.x ^ 2 +
          (avoidAcc flock fish).2.y ^ 2 + (avoidAcc flock fish).2.z ^ 2)
      · rw [if_pos hm, if_pos hm]
        have hlen : (avoidAcc flock fish).2.length ≠ 0 := by
          unfold Vec3.length
          exact ne_of_gt hm
        unfold strictNormalize
        rw [if_neg hlen, Option.map_some', normalize_eval rfl hlen]
      · rw [if_neg hm, if_neg hm]
  · simp only [alignChecked, align]
    by_cases h : 0 < (alignAcc flock fish).1
    · rw [if_pos h, if_pos h]
      unfold checkedDivN
      rw [if_neg (by omega)]
      rfl
    · rw [if_neg h, if_neg h]

/-- Agent at `(-10, 0)` for the zero-normalize cohesion scenario. -/
def fishR : Fish := ⟨⟨-10, 0, 0⟩, ⟨0, 0, 0⟩, ⟨0, 0, 0⟩, 0⟩

/-- Lone agent with a purely vertical velocity. -/
def fishV : Fish := ⟨⟨0, 0, 0⟩, ⟨0, 3, 0⟩, ⟨0, 0, 0⟩, 0⟩

theorem distOR : fishO.position.distanceTo fishR.position = 10 := by
  show Vec3.distanceTo ⟨0, 0, 0⟩ ⟨-10, 0, 0⟩ = 10
  unfold Vec3.distanceTo Vec3.sub
  exact length_eval (by norm_num) (by norm_num)

theorem cohesionNbrs_OPR : cohesionNbrs [fishO, fishP, fishR] fishO = [fishP, fishR] := by
  unfold cohesionNbrs
  simp only [List.filter_cons, List.filter_nil, Vec3.distanceTo_self, distOP, distOR]
  norm_num [cohesionRadius, fishSize]

/-- C7 as stated is false: with neighbors at `(10, 0)` and `(-10, 0)` the
cohesion scan of the agent at the origin has a positive count, yet the
vector handed to `normalize` in the taken branch is exactly zero — there
is no magnitude check before that normalization (the strict variant
fails); and for a lone fish with vertical velocity the divisor
`velocity.x` of the unconditional heading computation is zero. -/
theorem cohesion_normalizes_zero_vector :
    cohesionStrict [fishO, fishP, fishR] fishO = none ∧
    (updateFish [fishV] fishV).velocity.x = 0 := by
  constructor
  · unfold cohesionStrict
    rw [cohesionAcc_eq, cohesionNbrs_OPR]
    simp only [List.length_cons, List.length_nil, List.map_cons, List.map_nil,
      vsum_cons, vsum_nil]
    rw [if_pos (by norm_num)]
    have hdes : ((Vec3.add fishP.position (Vec3.add fishR.position Vec3.zero)).divideScalar
        ((0 + 1 + 1 : ℕ) : ℝ)).sub fishO.position = Vec3.zero := by
      show ((Vec3.add ⟨10, 0, 0⟩ (Vec3.add ⟨-10, 0, 0⟩ Vec3.zero)).divideScalar
        ((0 + 1 + 1 : ℕ) : ℝ)).sub ⟨0, 0, 0⟩ = Vec3.zero
      unfold Vec3.add Vec3.divideScalar Vec3.sub Vec3.zero
      norm_num
    rw [hdes]
    unfold strictNormalize
    rw [if_pos]
    · rfl
    · unfold Vec3.length Vec3.zero
      norm_num
  · have hA : tickAccel [fishV] fishV = Vec3.zero :=
      tickAccel_eq_zero rfl (cohesion_of_nbrs_nil (cohesionNbrs_singleton _))
        (avoid_of_nbrs_nil (avoidNbrs_singleton _))
        (align_of_nbrs_nil (alignNbrs_singleton _))
    rw [updateFish_velocity, hA, Vec3.add_zero']
    show max (-maxFishSpeed) (min maxFishSpeed (0 : ℝ)) = 0
    norm_num [maxFishSpeed]

/-! ## C2: concrete two-fish evaluations -/

/-- The value `updateFish [fishO, fishP] fishO`: the origin fish after the
first iteration of the tick over `[fishO, fishP]`. -/
def fishA1 : Fish := ⟨⟨-1/10, 0, 0⟩, ⟨-1/10, 0, 0⟩, ⟨0, 0, 0⟩, Real.pi / 2⟩

theorem fishO_position : fishO.position = ⟨0, 0, 0⟩ := rfl
theorem fishO_velocity : fishO.velocity = ⟨0, 0, 0⟩ := rfl
theorem fishO_acceleration : fishO.acceleration = Vec3.zero := rfl
theorem fishP_position : fishP.position = ⟨10, 0, 0⟩ := rfl
theorem fishP_velocity : fishP.velocity = ⟨0, 0, 0⟩ := rfl
theorem fishP_acceleration : fishP.acceleration = Vec3.zero := rfl
theorem fishA1_position : fishA1.position = ⟨-1/10, 0, 0⟩ := rfl
theorem fishA1_velocity : fishA1.velocity = ⟨-1/10, 0, 0⟩ := rfl
theorem fishA1_acceleration : fishA1.acceleration = Vec3.zero := rfl

theorem distOP_lit : Vec3.distanceTo ⟨0, 0, 0⟩ ⟨10, 0, 0⟩ = 10 := by
  unfold Vec3.distanceTo Vec3.sub
  exact length_eval (by norm_num) (by norm_num)

theorem distPO_lit : Vec3.distanceTo ⟨10, 0, 0⟩ ⟨0, 0, 0⟩ = 10 := by
  unfold Vec3.distanceTo Vec3.sub
  exact length_eval (by norm_num) (by norm_num)

theorem distPA1_lit : Vec3.distanceTo ⟨10, 0, 0⟩ ⟨-1/10, 0, 0⟩ = 101/10 := by
  unfold Vec3.distanceTo Vec3.sub
  exact length_eval (by norm_num) (by norm_num)

theorem distPO : fishP.position.distanceTo fishO.position = 10 := distPO_lit

theorem dist_xaxis_of_le {a b : ℝ} (h : b ≤ a) :
    Vec3.distanceTo ⟨a, 0, 0⟩ ⟨b, 0, 0⟩ = a - b := by
  unfold Vec3.distanceTo Vec3.sub
  exact length_eval (by linarith) (by ring)

theorem dist_xaxis_of_ge {a b : ℝ} (h : a ≤ b) :
    Vec3.distanceTo ⟨a, 0, 0⟩ ⟨b, 0, 0⟩ = b - a := by
  unfold Vec3.distanceTo Vec3.sub
  refine length_eval (by linarith) (by ring)

theorem distPA1 : fishP.position.distanceTo fishA1.position = 101/10 := distPA1_lit

theorem normalize_xaxis_pos {c : ℝ} (hc : 0 < c) :
    Vec3.normalize ⟨c, 0, 0⟩ = ⟨1, 0, 0⟩ := by
  have hlen : (⟨c, 0, 0⟩ : Vec3).length = c := by
    unfold Vec3.length
    exact sqrt_eval (le_of_lt hc) (by ring)
  rw [normalize_eval hlen (ne_of_gt hc)]
  unfold Vec3.divideScalar
  rw [div_self (ne_of_gt hc)]
  norm_num

theorem normalize_xaxis_neg {c : ℝ} (hc : c < 0) :
    Vec3.normalize ⟨c, 0, 0⟩ = ⟨-1, 0, 0⟩ := by
  have hlen : (⟨c, 0, 0⟩ : Vec3).length = -c := by
    unfold Vec3.length
    exact sqrt_eval (by linarith) (by ring)
  rw [normalize_eval hlen (by linarith)]
  unfold Vec3.divideScalar
  rw [div_neg, div_self (ne_of_lt hc)]
  norm_num

theorem normalize_zero_mk : Vec3.normalize ⟨0, 0, 0⟩ = ⟨0, 0, 0⟩ := by
  have hlen : (⟨0, 0, 0⟩ : Vec3).length = 0 := by
    unfold Vec3.length
    exact sqrt_eval le_rfl (by ring)
  unfold Vec3.normalize
  rw [hlen, if_pos rfl]
  norm_num [Vec3.divideScalar]

theorem cohesionNbrs_OP_O : cohesionNbrs [fishO, fishP] fishO = [fishP] := by
  unfold cohesionNbrs
  simp only [List.filter_cons, List.filter_nil, Vec3.distanceTo_self, distOP]
  norm_num [cohesionRadius, fishSize]

theorem avoidNbrs_OP_O : avoidNbrs [fishO, fishP] fishO = [fishP] := by
  unfold avoidNbrs
  simp only [List.filter_cons, List.filter_nil, Vec3.distanceTo_self, distOP]
  norm_num [avoidanceRadius]

theorem alignNbrs_OP_O : alignNbrs [fishO, fishP] fishO = [fishP] := by
  unfold alignNbrs
  simp only [List.filter_cons, List.filter_nil, Vec3.distanceTo_self, distOP]
  norm_num [alignmentRadius]

theorem cohesionNbrs_A1P_P : cohesionNbrs [fishA1, fishP] fishP = [fishA1] := by
  unfold cohesionNbrs
  simp only [List.filter_cons, List.filter_nil, Vec3.distanceTo_self, distPA1]
  norm_num [cohesionRadius, fishSize]

theorem avoidNbrs_A1P_P : avoidNbrs [fishA1, fishP] fishP = [fishA1] := by
  unfold avoidNbrs
  simp only [List.filter_cons, List.filter_nil, Vec3.distanceTo_self, distPA1]
  norm_num [avoidanceRadius]

theorem alignNbrs_A1P_P : alignNbrs [fishA1, fishP] fishP = [fishA1] := by
  unfold alignNbrs
  simp only [List.filter_cons, List.filter_nil, Vec3.distanceTo_self, distPA1]
  norm_num [alignmentRadius]

theorem cohesionNbrs_PO_P : cohesionNbrs [fishP, fishO] fishP = [fishO] := by
  unfold cohesionNbrs
  simp only [List.filter_cons, List.filter_nil, Vec3.distanceTo_self, distPO]
  norm_num [cohesionRadius, fishSize]

theorem avoidNbrs_PO_P : avoidNbrs [fishP, fishO] fishP = [fishO] := by
  unfold avoidNbrs
  simp only [List.filter_cons, List.filter_nil, Vec3.distanceTo_self, distPO]
  norm_num [avoidanceRadius]

theorem alignNbrs_PO_P : alignNbrs [fishP, fishO] fishP = [fishO] := by
  unfold alignNbrs
  simp only [List.filter_cons, List.filter_nil, Vec3.distanceTo_self, distPO]
  norm_num [alignmentRadius]

theorem cohesionNbrs_OP_P : cohesionNbrs [fishO, fishP] fishP = [fishO] := by
  unfold cohesionNbrs
  simp only [List.filter_cons, List.filter_nil, Vec3.distanceTo_self, distPO]
  norm_num [cohesionRadius, fishSize]

theorem avoidNbrs_OP_P : avoidNbrs [fishO, fishP] fishP = [fishO] := by
  unfold avoidNbrs
  simp only [List.filter_cons, List.filter_nil, Vec3.distanceTo_self, distPO]
  norm_num [avoidanceRadius]

theorem alignNbrs_OP_P : alignNbrs [fishO, fishP] fishP = [fishO] := by
  unfold alignNbrs
  simp only [List.filter_cons, List.filter_nil, Vec3.distanceTo_self, distPO]
  norm_num [alignmentRadius]

theorem cohesion_OP_O : cohesion [fishO, fishP] fishO = ⟨1/25, 0, 0⟩ := by
  simp only [cohesion, cohesionAcc_eq, cohesionNbrs_OP_O, List.length_cons, List.length_nil,
    List.map_cons, List.map_nil, vsum_cons, vsum_nil]
  rw [if_pos (by norm_num)]
  norm_num [fishP_position, fishO_position, fishO_velocity, Vec3.add, Vec3.zero, Vec3.sub,
    Vec3.divideScalar, Vec3.multiplyScalar, Vec3.clampScalar, normalize_xaxis_pos,
    normalize_xaxis_neg, maxFishSpeed, maxFishForce, min_def, max_def]

theorem avoid_OP_O : avoid [fishO, fishP] fishO = ⟨-1/25, 0, 0⟩ := by
  simp only [avoid, avoidAcc_eq, avoidNbrs_OP_O, List.length_cons, List.length_nil,
    List.map_cons, List.map_nil, vsum_cons, vsum_nil]
  norm_num [fishP_position, fishO_position, fishO_velocity, distOP, distOP_lit, Vec3.add,
    Vec3.zero, Vec3.sub, Vec3.divideScalar, Vec3.multiplyScalar, Vec3.clampScalar,
    normalize_xaxis_pos, normalize_xaxis_neg, Real.sqrt_pos, maxFishSpeed, maxFishForce,
    min_def, max_def]

theorem align_OP_O : align [fishO, fishP] fishO = ⟨0, 0, 0⟩ := by
  simp only [align, alignAcc_eq, alignNbrs_OP_O, List.length_cons, List.length_nil,
    List.map_cons, List.map_nil, vsum_cons, vsum_nil]
  rw [if_pos (by norm_num)]
  norm_num [fishP_velocity, fishO_velocity, Vec3.add, Vec3.zero, Vec3.sub,
    Vec3.divideScalar, Vec3.multiplyScalar, Vec3.clampScalar, normalize_zero_mk,
    maxFishSpeed, maxFishForce, min_def, max_def]

theorem cohesion_A1P_P : cohesion [fishA1, fishP] fishP = ⟨-1/25, 0, 0⟩ := by
  simp only [cohesion, cohesionAcc_eq, cohesionNbrs_A1P_P, List.length_cons, List.length_nil,
    List.map_cons, List.map_nil, vsum_cons, vsum_nil]
  rw [if_pos (by norm_num)]
  norm_num [fishA1_position, fishP_position, fishP_velocity, Vec3.add, Vec3.zero, Vec3.sub,
    Vec3.divideScalar, Vec3.multiplyScalar, Vec3.clampScalar, normalize_xaxis_pos,
    normalize_xaxis_neg, maxFishSpeed, maxFishForce, min_def, max_def]

theorem avoid_A1P_P : avoid [fishA1, fishP] fishP = ⟨1/25, 0, 0⟩ := by
  simp only [avoid, avoidAcc_eq, avoidNbrs_A1P_P, List.length_cons, List.length_nil,
    List.map_cons, List.map_nil, vsum_cons, vsum_nil]
  norm_num [fishA1_position, fishP_position, fishP_velocity, distPA1, distPA1_lit,
    dist_xaxis_of_le, dist_xaxis_of_ge, Vec3.add,
    Vec3.zero, Vec3.sub, Vec3.divideScalar, Vec3.multiplyScalar, Vec3.clampScalar,
    normalize_xaxis_pos, normalize_xaxis_neg, Real.sqrt_pos, maxFishSpeed, maxFishForce,
    min_def, max_def]

theorem align_A1P_P : align [fishA1, fishP] fishP = ⟨-1/25, 0, 0⟩ := by
  simp only [align, alignAcc_eq, alignNbrs_A1P_P, List.length_cons, List.length_nil,
    List.map_cons, List.map_nil, vsum_cons, vsum_nil]
  rw [if_pos (by norm_num)]
  norm_num [fishA1_velocity, fishP_velocity, Vec3.add, Vec3.zero, Vec3.sub,
    Vec3.divideScalar, Vec3.multiplyScalar, Vec3.clampScalar, normalize_xaxis_pos,
    normalize_xaxis_neg, maxFishSpeed, maxFishForce, min_def, max_def]

theorem cohesion_PO_P : cohesion [fishP, fishO] fishP = ⟨-1/25, 0, 0⟩ := by
  simp only [cohesion, cohesionAcc_eq, cohesionNbrs_PO_P, List.length_cons, List.length_nil,
    List.map_cons, List.map_nil, vsum_cons, vsum_nil]
  rw [if_pos (by norm_num)]
  norm_num [fishO_position, fishP_position, fishP_velocity, Vec3.add, Vec3.zero, Vec3.sub,
    Vec3.divideScalar, Vec3.multiplyScalar, Vec3.clampScalar, normalize_xaxis_pos,
    normalize_xaxis_neg, maxFishSpeed, maxFishForce, min_def, max_def]

theorem avoid_PO_P : avoid [fishP, fishO] fishP = ⟨1/25, 0, 0⟩ := by
  simp only [avoid, avoidAcc_eq, avoidNbrs_PO_P, List.length_cons, List.length_nil,
    List.map_cons, List.map_nil, vsum_cons, vsum_nil]
  norm_num [fishO_position, fishP_position, fishP_velocity, distPO, distPO_lit, Vec3.add,
    Vec3.zero, Vec3.sub, Vec3.divideScalar, Vec3.multiplyScalar, Vec3.clampScalar,
    normalize_xaxis_pos, normalize_xaxis_neg, Real.sqrt_pos, maxFishSpeed, maxFishForce,
    min_def, max_def]

theorem align_PO_P : align [fishP, fishO] fishP = ⟨0, 0, 0⟩ := by
  simp only [align, alignAcc_eq, alignNbrs_PO_P, List.length_cons, List.length_nil,
    List.map_cons, List.map_nil, vsum_cons, vsum_nil]
  rw [if_pos (by norm_num)]
  norm_num [fishO_velocity, fishP_velocity, Vec3.add, Vec3.zero, Vec3.sub,
    Vec3.divideScalar, Vec3.multiplyScalar, Vec3.clampScalar, normalize_zero_mk,
    maxFishSpeed, maxFishForce, min_def, max_def]

theorem cohesion_OP_P : cohesion [fishO, fishP] fishP = ⟨-1/25, 0, 0⟩ := by
  simp only [cohesion, cohesionAcc_eq, cohesionNbrs_OP_P, List.length_cons, List.length_nil,
    List.map_cons, List.map_nil, vsum_cons, vsum_nil]
  rw [if_pos (by norm_num)]
  norm_num [fishO_position, fishP_position, fishP_velocity, Vec3.add, Vec3.zero, Vec3.sub,
    Vec3.divideScalar, Vec3.multiplyScalar, Vec3.clampScalar, normalize_xaxis_pos,
    normalize_xaxis_neg, maxFishSpeed, maxFishForce, min_def, max_def]

theorem avoid_OP_P : avoid [fishO, fishP] fishP = ⟨1/25, 0, 0⟩ := by
  simp only [avoid, avoidAcc_eq, avoidNbrs_OP_P, List.length_cons, List.length_nil,
    List.map_cons, List.map_nil, vsum_cons, vsum_nil]
  norm_num [fishO_position, fishP_position, fishP_velocity, distPO, distPO_lit, Vec3.add,
    Vec3.zero, Vec3.sub, Vec3.divideScalar, Vec3.multiplyScalar, Vec3.clampScalar,
    normalize_xaxis_pos, normalize_xaxis_neg, Real.sqrt_pos, maxFishSpeed, maxFishForce,
    min_def, max_def]

theorem align_OP_P : align [fishO, fishP] fishP = ⟨0, 0, 0⟩ := by
  simp only [align, alignAcc_eq, alignNbrs_OP_P, List.length_cons, List.length_nil,
    List.map_cons, List.map_nil, vsum_cons, vsum_nil]
  rw [if_pos (by norm_num)]
  norm_num [fishO_velocity, fishP_velocity, Vec3.add, Vec3.zero, Vec3.sub,
    Vec3.divideScalar, Vec3.multiplyScalar, Vec3.clampScalar, normalize_zero_mk,
    maxFishSpeed, maxFishForce, min_def, max_def]

theorem accel_OP_O : tickAccel [fishO, fishP] fishO = ⟨-1/10, 0, 0⟩ := by
  norm_num [tickAccel, cohesion_OP_O, avoid_OP_O, align_OP_O, fishO_acceleration,
    Vec3.add, Vec3.multiplyScalar, Vec3.zero, cohesionStrength, avoidanceStrength,
    alignmentStrength]

theorem accel_A1P_P : tickAccel [fishA1, fishP] fishP = ⟨3/50, 0, 0⟩ := by
  norm_num [tickAccel, cohesion_A1P_P, avoid_A1P_P, align_A1P_P, fishP_acceleration,
    Vec3.add, Vec3.multiplyScalar, Vec3.zero, cohesionStrength, avoidanceStrength,
    alignmentStrength]

theorem accel_PO_P : tickAccel [fishP, fishO] fishP = ⟨1/10, 0, 0⟩ := by
  norm_num [tickAccel, cohesion_PO_P, avoid_PO_P, align_PO_P, fishP_acceleration,
    Vec3.add, Vec3.multiplyScalar, Vec3.zero, cohesionStrength, avoidanceStrength,
    alignmentStrength]

theorem accel_OP_P : tickAccel [fishO, fishP] fishP = ⟨1/10, 0, 0⟩ := by
  norm_num [tickAccel, cohesion_OP_P, avoid_OP_P, align_OP_P, fishP_acceleration,
    Vec3.add, Vec3.multiplyScalar, Vec3.zero, cohesionStrength, avoidanceStrength,
    alignmentStrength]

theorem updateFish_O : updateFish [fishO, fishP] fishO = fishA1 := by
  simp only [updateFish, accel_OP_O]
  norm_num [fishO_position, fishO_velocity, Vec3.add, Vec3.clampScalar, Vec3.multiplyScalar,
    maxFishSpeed, min_def, max_def, wrapCoord, boundaryWidth, boundaryHeight, fishA1,
    Fish.mk.injEq, Vec3.mk.injEq, Real.arctan_zero, Real.sign_of_neg]

theorem vel_A1P_P : (updateFish [fishA1, fishP] fishP).velocity = ⟨3/50, 0, 0⟩ := by
  rw [updateFish_velocity, accel_A1P_P]
  norm_num [fishP_velocity, Vec3.add, Vec3.clampScalar, maxFishSpeed, min_def, max_def]

theorem posx_A1P_P : (updateFish [fishA1, fishP] fishP).position.x = 503/50 := by
  rw [updateFish_position_x, vel_A1P_P]
  norm_num [fishP_position, wrapCoord, boundaryWidth]

theorem vel_PO_P : (updateFish [fishP, fishO] fishP).velocity = ⟨1/10, 0, 0⟩ := by
  rw [updateFish_velocity, accel_PO_P]
  norm_num [fishP_velocity, Vec3.add, Vec3.clampScalar, maxFishSpeed, min_def, max_def]

theorem posx_PO_P : (updateFish [fishP, fishO] fishP).position.x = 101/10 := by
  rw [updateFish_position_x, vel_PO_P]
  norm_num [fishP_position, wrapCoord, boundaryWidth]

theorem vel_OP_P : (updateFish [fishO, fishP] fishP).velocity = ⟨1/10, 0, 0⟩ := by
  rw [updateFish_velocity, accel_OP_P]
  norm_num [fishP_velocity, Vec3.add, Vec3.clampScalar, maxFishSpeed, min_def, max_def]

theorem posx_OP_P : (updateFish [fishO, fishP] fishP).position.x = 101/10 := by
  rw [updateFish_position_x, vel_OP_P]
  norm_num [fishP_position, wrapCoord, boundaryWidth]

theorem tickStep_OP_0 : tickStep [fishO, fishP] 0 = [fishA1, fishP] := by
  show List.set [fishO, fishP] 0 (updateFish [fishO, fishP] fishO) = [fishA1, fishP]
  rw [updateFish_O]
  rfl

theorem tickSeq_OP : tickSeq [fishO, fishP] = [fishA1, updateFish [fishA1, fishP] fishP] := by
  have h2 : tickSeq [fishO, fishP] = tickStep (tickStep [fishO, fishP] 0) 1 := by
    show tickUpTo [fishO, fishP] 2 = _
    rw [show (2 : ℕ) = 1 + 1 from rfl, tickUpTo_succ, show (1 : ℕ) = 0 + 1 from rfl,
      tickUpTo_succ]
    rfl
  rw [h2, tickStep_OP_0]
  show List.set [fishA1, fishP] 1 (updateFish [fishA1, fishP] fishP) = _
  rfl

theorem tickSeq_PO_get0 :
    (tickSeq [fishP, fishO]).get? 0 = some (updateFish [fishP, fishO] fishP) := by
  rw [tickSeq_get?_eq [fishP, fishO] (by simp)]
  rfl

theorem tickSnap_OP_get1 :
    (tickSnap [fishO, fishP]).get? 1 = some (updateFish [fishO, fishP] fishP) := rfl

/-- C2 as stated is false: over the two-fish flock `[fishO, fishP]`
(stationary fish at `(0,0)` and `(10,0)`) the second fish ends the tick at
`x = 10.06`, because it reads the first fish's already-updated state; with
the processing order reversed (or under the snapshot semantics the claim
asserts) the same fish ends at `x = 10.1`. -/
theorem tick_not_order_independent :
    ((tickSeq [fishO, fishP]).get? 1).map (fun g => g.position.x) = some (503/50) ∧
    ((tickSeq [fishP, fishO]).get? 0).map (fun g => g.position.x) = some (101/10) ∧
    ((tickSnap [fishO, fishP]).get? 1).map (fun g => g.position.x) = some (101/10) ∧
    (503/50 : ℝ) ≠ 101/10 := by
  refine ⟨?_, ?_, ?_, by norm_num⟩
  · rw [tickSeq_OP]
    show some ((updateFish [fishA1, fishP] fishP).position.x) = _
    rw [posx_A1P_P]
  · rw [tickSeq_PO_get0]
    show some ((updateFish [fishP, fishO] fishP).position.x) = _
    rw [posx_PO_P]
  · rw [tickSnap_OP_get1]
    show some ((updateFish [fishO, fishP] fishP).position.x) = _
    rw [posx_OP_P]

/-- C2 (amended): the tick is sequential, not snapshot-based: the
post-tick fish at index `j` is the pre-tick fish `j` updated against the
flock in which fish `0 … j-1` have already advanced to their next-tick
state while fish `j, j+1, …` are still pre-tick; each fish's own forces
are computed before that fish itself is mutated, but later fish observe
earlier fish's updated state, so a different processing order can produce
a different post-tick flock. -/
theorem tick_sequential_semantics (flock : List Fish) (j : ℕ) (hj : j < flock.length) :
    (tickSeq flock).get? j
      = (flock.get? j).map (fun f => updateFish (tickUpTo flock j) f) :=
  tickSeq_get?_eq flock hj

/-- Witness for the amended C2 at a concrete flock and index. -/
theorem tick_sequential_semantics_witness :
    0 < ([fishO, fishP] : List Fish).length ∧
    (tickSeq [fishO, fishP]).get? 0
      = (([fishO, fishP] : List Fish).get? 0).map
          (fun f => updateFish (tickUpTo [fishO, fishP] 0) f) :=
  ⟨by simp, tick_sequential_semantics [fishO, fishP] 0 (by simp)⟩
